import Mathlib

/-!
Verification of the ObjectHandler controller
(`controllers/status/objecthandler_controller.go`).

The controller logic (`Reconcile`, `doReconcile`, `addWatchForKind`, the
watch mapping closure) is embedded faithfully from the Go source.  All
external effects (the object store, handler construction and execution,
watch subscription creation, status patching) are supplied by an `Env`
record of oracles; each oracle fixes the outcome of the corresponding
external call during one reconcile pass.  The concurrency of the real
system is modelled by sequences of calls: the controller's single mutex
serializes every critical section of `addWatchForKind`, so an interleaved
execution is observationally a sequence of whole calls.

The ObjectHandler API types (`spec.forObject`, `spec.handlers`,
`spec.interval`, `status.handlerStatus`) and the handler package are not
part of the two source files; they are modelled from the specification
where noted.
-/

namespace TemplateController

/-- Modelled from the spec: an error returned by the object repository
(Kubernetes API); `notFound` distinguishes the not-found case. -/
structure K8sErr where
  notFound : Bool
  msg : String
deriving DecidableEq, Repr

/-- A Go `error` value as produced by the controller: either a plain error
or a `go-multierror` aggregate of individual messages. -/
inductive GoErr where
  | simple (msg : String)
  | multi (msgs : List String)
deriving DecidableEq, Repr

/-- The `Error()` rendering of a Go error; `multi` joins the individual
messages (the exact multierror format is irrelevant to the claims). -/
def GoErr.message : GoErr → String
  | .simple m => m
  | .multi ms => String.intercalate "; " ms

/-- True exactly when the error is a multierror aggregate, i.e. it was
produced by completing the handler loop (all other failure paths of
`doReconcile` return `simple` errors). -/
def GoErr.isMulti : GoErr → Bool
  | .simple _ => false
  | .multi _ => true

/-- `schema.GroupVersionKind`. -/
structure GVK where
  group : String
  version : String
  kind : String
deriving DecidableEq, Repr

/-- `types.NamespacedName`; `ns` stands for the `Namespace` field
(`namespace` is reserved in Lean). -/
structure NamespacedName where
  ns : String
  name : String
deriving DecidableEq, Repr

/-- Modelled from the spec: the target object reference
`spec.forObject{group,version,kind,name,namespace}`. -/
structure ObjectRef where
  group : String
  version : String
  kind : String
  name : String
  ns : String
deriving DecidableEq, Repr

/-- `ObjectRef.GroupVersionKind()`.  The Go method returns `(gvk, error)`;
with the spec's shape (separate group and version fields) assembling the
GVK cannot fail, so the `Except` is always `ok` — the error branch the
controller checks is kept in the embedding but is unreachable. -/
def ObjectRef.groupVersionKind (r : ObjectRef) : Except String GVK :=
  .ok ⟨r.group, r.version, r.kind⟩

/-- The two concrete handler strategies of the handlers package. -/
inductive HandlerKind where
  | comment
  | approve
deriving DecidableEq, Repr

/-- Modelled from the spec: one handler specification, a tagged variant
with mutually exclusive kind fields; the kind-specific configuration is
opaque to the controller and kept as a `String` payload. -/
structure HandlerSpec where
  pullRequestComment : Option String
  pullRequestApprove : Option String
deriving DecidableEq, Repr

/-- Modelled from the spec: one per-handler status record `{key, error}`. -/
structure HandlerStatus where
  key : String
  error : String
deriving DecidableEq, Repr

/-- `metav1.ConditionStatus`. -/
inductive CondStatus where
  | ctrue
  | cfalse
  | cunknown
deriving DecidableEq, Repr

/-- `metav1.Condition` (without `LastTransitionTime`, which no claim
mentions). -/
structure Condition where
  type : String
  status : CondStatus
  observedGeneration : Nat
  reason : String
  message : String
deriving DecidableEq, Repr

/-- Modelled from the spec: the ObjectHandler spec — target reference,
reconciliation interval and the ordered handler list. -/
structure ObjectHandlerSpec where
  forObject : ObjectRef
  interval : Nat
  handlers : List HandlerSpec
deriving DecidableEq, Repr

/-- Modelled from the spec: the ObjectHandler status subtree. -/
structure ObjectHandlerStatus where
  conditions : List Condition
  handlerStatus : List HandlerStatus
deriving DecidableEq, Repr

/-- Modelled from the spec: one custom-resource instance. -/
structure ObjectHandler where
  ns : String
  name : String
  generation : Nat
  spec : ObjectHandlerSpec
  status : ObjectHandlerStatus
deriving DecidableEq, Repr

/-- The oracles supplying every external effect of one reconcile pass.
`build` is the outcome of `handlers.BuildPullRequest{Comment,Approve}Reporter`
(`some msg` = resolution failure), `handle` the outcome of the resolved
reporter's `Handle` (`some msg` = execution failure); both take the
instance namespace and the opaque handler configuration. -/
structure Env where
  getInstance : Except K8sErr ObjectHandler
  getTarget : GVK → NamespacedName → Option K8sErr
  build : HandlerKind → String → String → Option String
  handle : HandlerKind → String → String → Option String
  watchCreate : GVK → Option String
  patch : Option K8sErr

/-- The reconciler's in-memory state: `watchedKinds` is the
`map[schema.GroupVersionKind]bool` registry (membership = marked active),
and `subscriptions` is a log of every successful `controller.Watch` call,
recorded to state the at-most-one-subscription property. -/
structure RState where
  watchedKinds : List GVK
  subscriptions : List GVK
deriving DecidableEq, Repr

/-- Lines 152–158 of `doReconcile`: select the reporter to build.
`PullRequestComment` is tested first; `PullRequestApprove` is only
consulted when the former is nil; if neither is set the loop fails with
"no reporter specified". -/
def selectReporter (s : HandlerSpec) : Option (HandlerKind × String) :=
  match s.pullRequestComment with
  | some cfg => some (HandlerKind.comment, cfg)
  | none =>
    match s.pullRequestApprove with
    | some cfg => some (HandlerKind.approve, cfg)
    | none => none

/-- Lines 166–186 of `doReconcile`, combined effect on the status list:
locate the first record with the given key (append a fresh one at the end
if absent) and set its `Error` field to the outcome of `Handle`. -/
def upsertStatus : List HandlerStatus → String → String → List HandlerStatus
  | [], key, e => [⟨key, e⟩]
  | x :: xs, key, e =>
    if x.key = key then { x with error := e } :: xs
    else x :: upsertStatus xs key e

/-- `existingStatuses[key] = true`: set-insert into the visited-key set
(kept as a duplicate-free list). -/
def insertKey (ex : List String) (k : String) : List String :=
  if k ∈ ex then ex else ex ++ [k]

/-- Result of the handler loop: `fail` is an early `return err` (the
status list mutated so far is kept, since the Go code mutates `sr` in
place), `ok` carries the final status list, the visited-key set and the
accumulated multierror messages. -/
inductive LoopOut where
  | fail (statuses : List HandlerStatus) (e : GoErr)
  | ok (statuses : List HandlerStatus) (existing : List String) (errs : List String)
deriving DecidableEq, Repr

/-- Lines 150–187 of `doReconcile`: the handler loop.  `bk` is
`HandlerSpec.BuildKey` (not among the source files; the spec only requires
it to be a deterministic function of the specification, which any Lean
function is), `ns` the instance namespace. -/
def handlerLoop (env : Env) (bk : HandlerSpec → String) (ns : String) :
    List HandlerSpec → List HandlerStatus → List String → List String → LoopOut
  | [], statuses, existing, errs => .ok statuses existing errs
  | s :: rest, statuses, existing, errs =>
    match selectReporter s with
    | none => .fail statuses (.simple "no reporter specified")
    | some (k, cfg) =>
      match env.build k ns cfg with
      | some e => .fail statuses (.simple e)
      | none =>
        let key := bk s
        let existing' := insertKey existing key
        match env.handle k ns cfg with
        | some e => handlerLoop env bk ns rest (upsertStatus statuses key e) existing' (errs ++ [e])
        | none => handlerLoop env bk ns rest (upsertStatus statuses key "") existing' errs

/-- Lines 131–137 of `doReconcile`: the namespaced name used to fetch the
target object — the reference's name, with the namespace taken from the
reference when non-empty and from the instance otherwise. -/
def targetNamespacedName (sr : ObjectHandler) : NamespacedName :=
  let n : NamespacedName := { ns := sr.ns, name := sr.spec.forObject.name }
  if sr.spec.forObject.ns ≠ "" then { n with ns := sr.spec.forObject.ns } else n

/-- `addWatchForKind` (lines 200–241): under the mutex, return immediately
when the kind is already marked active; otherwise create the watch
subscription, and only on success mark the kind active (and log the
created subscription). -/
def addWatchForKind (env : Env) (st : RState) (sr : ObjectHandler) :
    RState × Option GoErr :=
  match sr.spec.forObject.groupVersionKind with
  | .error e => (st, some (.simple e))
  | .ok gvk =>
    if gvk ∈ st.watchedKinds then (st, none)
    else
      match env.watchCreate gvk with
      | some e => (st, some (.simple e))
      | none =>
        ({ watchedKinds := gvk :: st.watchedKinds,
           subscriptions := gvk :: st.subscriptions }, none)

/-- The `EnqueueRequestsFromMapFunc` closure registered by
`addWatchForKind` (lines 216–234): list the instances indexed to the
notified object and enqueue one request per match; a `List` error yields
`nil` requests. -/
def watchMapFunc (listResult : Except K8sErr (List ObjectHandler)) :
    List NamespacedName :=
  match listResult with
  | .error _ => []
  | .ok items => items.map fun x => { ns := x.ns, name := x.name }

/-- Outcome of `doReconcile`: new reconciler state, the instance's status
list after in-place mutation, and the returned error. -/
structure DoOut where
  st : RState
  statuses : List HandlerStatus
  err : Option GoErr
deriving Repr

/-- `doReconcile` (lines 120–198): ensure the watch, resolve the
reference, fetch the target object, run the handler loop, prune status
records whose key was not visited, and aggregate execution failures. -/
def doReconcile (env : Env) (bk : HandlerSpec → String) (st : RState)
    (sr : ObjectHandler) : DoOut :=
  match addWatchForKind env st sr with
  | (st', some e) => ⟨st', sr.status.handlerStatus, some e⟩
  | (st', none) =>
    match sr.spec.forObject.groupVersionKind with
    | .error e => ⟨st', sr.status.handlerStatus, some (.simple e)⟩
    | .ok gvk =>
      match env.getTarget gvk (targetNamespacedName sr) with
      | some e => ⟨st', sr.status.handlerStatus, some (.simple e.msg)⟩
      | none =>
        match handlerLoop env bk sr.ns sr.spec.handlers sr.status.handlerStatus [] [] with
        | .fail statuses e => ⟨st', statuses, some e⟩
        | .ok statuses existing errs =>
          ⟨st', statuses.filter (fun x => decide (x.key ∈ existing)),
            if errs.isEmpty then none else some (.multi errs)⟩

/-- `apimeta.SetStatusCondition`: update the condition with the matching
type in place, appending when absent. -/
def setStatusCondition (conds : List Condition) (c : Condition) : List Condition :=
  if conds.any (fun x => x.type = c.type) then
    conds.map (fun x => if x.type = c.type then c else x)
  else conds ++ [c]

/-- Lines 64–83 of `Reconcile`: the Ready condition written after
`doReconcile` — `False/Error` with the error's message on failure,
`True/Success` otherwise. -/
def readyCondition (sr : ObjectHandler) (derr : Option GoErr) : Condition :=
  match derr with
  | some e => ⟨"Ready", .cfalse, sr.generation, "Error", e.message⟩
  | none => ⟨"Ready", .ctrue, sr.generation, "Success", "Success"⟩

/-- `ctrl.Result`. -/
structure CtrlResult where
  requeueAfter : Nat
deriving DecidableEq, Repr

/-- Outcome of `Reconcile`: new reconciler state, the instance as patched
(`none` when nothing was persisted), the returned `ctrl.Result` and
error. -/
structure ReconcileOut where
  st : RState
  patched : Option ObjectHandler
  res : CtrlResult
  err : Option K8sErr
deriving Repr

/-- `Reconcile` (lines 56–92): fetch the instance (any fetch error is
returned as-is), run `doReconcile`, set the Ready condition, patch the
status, and on patch success schedule the next pass after the configured
interval regardless of the pipeline outcome. -/
def Reconcile (env : Env) (bk : HandlerSpec → String) (st : RState) : ReconcileOut :=
  match env.getInstance with
  | .error e => ⟨st, none, ⟨0⟩, some e⟩
  | .ok sr =>
    let d := doReconcile env bk st sr
    let sr' : ObjectHandler :=
      { sr with status :=
          { conditions := setStatusCondition sr.status.conditions (readyCondition sr d.err),
            handlerStatus := d.statuses } }
    match env.patch with
    | some e => ⟨d.st, none, ⟨0⟩, some e⟩
    | none => ⟨d.st, some sr', ⟨sr.spec.interval⟩, none⟩

/-- A sequence of `addWatchForKind` calls (each pass's call has its own
environment and instance), run against the in-memory registry state; the
mutex serializes the real calls, so any concurrent execution is
observationally such a sequence. -/
def runWatchCalls (st : RState) : List (Env × ObjectHandler) → RState
  | [] => st
  | c :: rest => runWatchCalls (addWatchForKind c.1 st c.2).1 rest

/-- The execution outcome the environment assigns to one handler
specification: the `Handle` result of the reporter the controller selects
for it (`none` = success). -/
def handleResult (env : Env) (ns : String) (s : HandlerSpec) : Option String :=
  match selectReporter s with
  | some (k, cfg) => env.handle k ns cfg
  | none => none

/-- The handler loop re-expressed as a fold, valid when every
specification resolves: each spec upserts its key with its execution
outcome. -/
def runSpecs (env : Env) (bk : HandlerSpec → String) (ns : String)
    (sts : List HandlerStatus) (specs : List HandlerSpec) : List HandlerStatus :=
  specs.foldl (fun acc s => upsertStatus acc (bk s) ((handleResult env ns s).getD "")) sts

/-- The keys of a status list. -/
def statusKeys (l : List HandlerStatus) : List String :=
  l.map HandlerStatus.key

theorem statusKeys_upsert (l : List HandlerStatus) (k e : String) :
    statusKeys (upsertStatus l k e) =
      if k ∈ statusKeys l then statusKeys l else statusKeys l ++ [k] := by
  induction l with
  | nil => simp [upsertStatus, statusKeys]
  | cons x xs ih =>
    by_cases hx : x.key = k
    · simp [upsertStatus, statusKeys, hx]
    · have hx' : ¬(k = x.key) := fun h => hx h.symm
      simp only [upsertStatus, if_neg hx, statusKeys, List.map_cons] at *
      rw [ih]
      by_cases hk : k ∈ xs.map HandlerStatus.key
      · simp [hk, hx']
      · simp [hk, hx']

theorem mem_statusKeys_upsert (a : String) (l : List HandlerStatus) (k e : String) :
    a ∈ statusKeys (upsertStatus l k e) ↔ a ∈ statusKeys l ∨ a = k := by
  rw [statusKeys_upsert]
  by_cases hk : k ∈ statusKeys l
  · simp only [if_pos hk]
    constructor
    · exact fun h => Or.inl h
    · rintro (h | rfl)
      · exact h
      · exact hk
  · simp [if_neg hk]

theorem nodup_statusKeys_upsert (l : List HandlerStatus) (k e : String)
    (h : (statusKeys l).Nodup) : (statusKeys (upsertStatus l k e)).Nodup := by
  rw [statusKeys_upsert]
  by_cases hk : k ∈ statusKeys l
  · simpa [if_pos hk] using h
  · simp [if_neg hk, List.nodup_append, h, hk]

theorem mem_insertKey (a : String) (ex : List String) (k : String) :
    a ∈ insertKey ex k ↔ a ∈ ex ∨ a = k := by
  unfold insertKey
  by_cases hk : k ∈ ex
  · simp only [if_pos hk]
    constructor
    · exact fun h => Or.inl h
    · rintro (h | rfl)
      · exact h
      · exact hk
  · simp [if_neg hk]

theorem handlerLoop_ok_keys (env : Env) (bk : HandlerSpec → String) (ns : String)
    (specs : List HandlerSpec) :
    ∀ (sts : List HandlerStatus) (ex errs : List String)
      (S : List HandlerStatus) (E R : List String),
      handlerLoop env bk ns specs sts ex errs = .ok S E R →
      ((statusKeys sts).Nodup → (statusKeys S).Nodup) ∧
      (∀ a, a ∈ statusKeys S ↔ a ∈ statusKeys sts ∨ a ∈ specs.map bk) ∧
      (∀ a, a ∈ E ↔ a ∈ ex ∨ a ∈ specs.map bk) := by
  induction specs with
  | nil =>
    intro sts ex errs S E R h
    simp only [handlerLoop, LoopOut.ok.injEq] at h
    obtain ⟨rfl, rfl, rfl⟩ := h
    exact ⟨fun hn => hn, fun a => by simp, fun a => by simp⟩
  | cons s rest ih =>
    intro sts ex errs S E R h
    cases hsel : selectReporter s with
    | none => simp [handlerLoop, hsel] at h
    | some kc =>
      obtain ⟨k, cfg⟩ := kc
      cases hb : env.build k ns cfg with
      | some e => simp [handlerLoop, hsel, hb] at h
      | none =>
        cases hh : env.handle k ns cfg with
        | some e =>
          simp only [handlerLoop, hsel, hb, hh] at h
          obtain ⟨ihn, ihm, ihe⟩ := ih _ _ _ _ _ _ h
          refine ⟨fun hn => ihn (nodup_statusKeys_upsert _ _ _ hn), fun a => ?_, fun a => ?_⟩
          · rw [ihm a, mem_statusKeys_upsert]
            simp only [List.map_cons, List.mem_cons]
            tauto
          · rw [ihe a, mem_insertKey]
            simp only [List.map_cons, List.mem_cons]
            tauto
        | none =>
          simp only [handlerLoop, hsel, hb, hh] at h
          obtain ⟨ihn, ihm, ihe⟩ := ih _ _ _ _ _ _ h
          refine ⟨fun hn => ihn (nodup_statusKeys_upsert _ _ _ hn), fun a => ?_, fun a => ?_⟩
          · rw [ihm a, mem_statusKeys_upsert]
            simp only [List.map_cons, List.mem_cons]
            tauto
          · rw [ihe a, mem_insertKey]
            simp only [List.map_cons, List.mem_cons]
            tauto

theorem handlerLoop_resolved (env : Env) (bk : HandlerSpec → String) (ns : String)
    (specs : List HandlerSpec) :
    (∀ s ∈ specs, ∃ k cfg, selectReporter s = some (k, cfg) ∧ env.build k ns cfg = none) →
    ∀ (sts : List HandlerStatus) (ex errs : List String),
      handlerLoop env bk ns specs sts ex errs =
        .ok (runSpecs env bk ns sts specs)
          (specs.foldl (fun e s => insertKey e (bk s)) ex)
          (errs ++ specs.filterMap (handleResult env ns)) := by
  induction specs with
  | nil => intro _ sts ex errs; simp [handlerLoop, runSpecs]
  | cons s rest ih =>
    intro hres sts ex errs
    obtain ⟨k, cfg, hsel, hb⟩ := hres s (List.mem_cons_self s rest)
    have hres' : ∀ s' ∈ rest, ∃ k cfg, selectReporter s' = some (k, cfg) ∧ env.build k ns cfg = none :=
      fun s' hs' => hres s' (List.mem_cons_of_mem _ hs')
    have hr : handleResult env ns s = env.handle k ns cfg := by
      simp [handleResult, hsel]
    cases hh : env.handle k ns cfg with
    | some e =>
      simp only [handlerLoop, hsel, hb, hh]
      rw [ih hres' _ _ _]
      simp [runSpecs, List.filterMap_cons, hr, hh]
    | none =>
      simp only [handlerLoop, hsel, hb, hh]
      rw [ih hres' _ _ _]
      simp [runSpecs, List.filterMap_cons, hr, hh]

theorem upsert_mem_self (l : List HandlerStatus) (k e : String) :
    ∃ r ∈ upsertStatus l k e, r.key = k ∧ r.error = e := by
  induction l with
  | nil => exact ⟨⟨k, e⟩, by simp [upsertStatus]⟩
  | cons x xs ih =>
    by_cases hx : x.key = k
    · exact ⟨{ x with error := e }, by simp [upsertStatus, hx]⟩
    · obtain ⟨r, hr, hrk, hre⟩ := ih
      exact ⟨r, by simp [upsertStatus, hx, hr], hrk, hre⟩

theorem upsert_mem_preserve (l : List HandlerStatus) (k e : String)
    (r : HandlerStatus) (hr : r ∈ l) (hk : r.key ≠ k) : r ∈ upsertStatus l k e := by
  induction l with
  | nil => simp at hr
  | cons x xs ih =>
    by_cases hx : x.key = k
    · rcases List.mem_cons.1 hr with rfl | hmem
      · exact absurd hx hk
      · simp [upsertStatus, hx, hmem]
    · rcases List.mem_cons.1 hr with rfl | hmem
      · simp [upsertStatus, hx]
      · simp [upsertStatus, hx, ih hmem]

theorem runSpecs_preserve (env : Env) (bk : HandlerSpec → String) (ns : String)
    (specs : List HandlerSpec) :
    ∀ (sts : List HandlerStatus) (r : HandlerStatus), r ∈ sts →
      r.key ∉ specs.map bk → r ∈ runSpecs env bk ns sts specs := by
  induction specs with
  | nil => intro sts r hr _; simpa [runSpecs] using hr
  | cons s rest ih =>
    intro sts r hr hk
    simp only [List.map_cons, List.mem_cons, not_or] at hk
    have : r ∈ upsertStatus sts (bk s) ((handleResult env ns s).getD "") :=
      upsert_mem_preserve _ _ _ r hr hk.1
    simpa [runSpecs, List.foldl_cons] using ih _ r this hk.2

theorem runSpecs_record (env : Env) (bk : HandlerSpec → String) (ns : String)
    (specs : List HandlerSpec) :
    ∀ (sts : List HandlerStatus), (specs.map bk).Nodup →
      ∀ s ∈ specs, ∃ r ∈ runSpecs env bk ns sts specs,
        r.key = bk s ∧ r.error = (handleResult env ns s).getD "" := by
  induction specs with
  | nil => intro sts _ s hs; simp at hs
  | cons s₀ rest ih =>
    intro sts hnd s hs
    simp only [List.map_cons, List.nodup_cons] at hnd
    rcases List.mem_cons.1 hs with rfl | hmem
    · obtain ⟨r, hr, hrk, hre⟩ :=
        upsert_mem_self sts (bk s) ((handleResult env ns s).getD "")
      refine ⟨r, ?_, hrk, hre⟩
      have : r ∈ runSpecs env bk ns (upsertStatus sts (bk s) ((handleResult env ns s).getD "")) rest :=
        runSpecs_preserve env bk ns rest _ r hr (by rw [hrk]; exact hnd.1)
      simpa [runSpecs, List.foldl_cons] using this
    · have := ih (upsertStatus sts (bk s₀) ((handleResult env ns s₀).getD "")) hnd.2 s hmem
      simpa [runSpecs, List.foldl_cons] using this

theorem mem_setStatusCondition (conds : List Condition) (c : Condition) :
    c ∈ setStatusCondition conds c := by
  unfold setStatusCondition
  by_cases h : conds.any (fun x => x.type = c.type)
  · simp only [if_pos h]
    rw [List.any_eq_true] at h
    obtain ⟨x, hx, hxt⟩ := h
    rw [List.mem_map]
    exact ⟨x, hx, by simp [of_decide_eq_true hxt]⟩
  · have h' : ¬ ∃ x ∈ conds, x.type = c.type := by simpa using h
    simp [h']

theorem reconcile_patch_ok (env : Env) (bk : HandlerSpec → String) (st : RState)
    (sr : ObjectHandler) (hget : env.getInstance = .ok sr) (hpatch : env.patch = none) :
    Reconcile env bk st =
      ⟨(doReconcile env bk st sr).st,
       some { sr with status :=
          { conditions := setStatusCondition sr.status.conditions
              (readyCondition sr (doReconcile env bk st sr).err),
            handlerStatus := (doReconcile env bk st sr).statuses } },
       ⟨sr.spec.interval⟩, none⟩ := by
  simp [Reconcile, hget, hpatch]

theorem doReconcile_loop_ok (env : Env) (bk : HandlerSpec → String) (st st' : RState)
    (sr : ObjectHandler) (S : List HandlerStatus) (E R : List String)
    (hw : addWatchForKind env st sr = (st', none))
    (ht : env.getTarget
        ⟨sr.spec.forObject.group, sr.spec.forObject.version, sr.spec.forObject.kind⟩
        (targetNamespacedName sr) = none)
    (hloop : handlerLoop env bk sr.ns sr.spec.handlers sr.status.handlerStatus [] [] = .ok S E R) :
    doReconcile env bk st sr =
      ⟨st', S.filter (fun x => decide (x.key ∈ E)),
        if R.isEmpty then none else some (.multi R)⟩ := by
  simp only [doReconcile, hw, ObjectRef.groupVersionKind, ht, hloop]

theorem doReconcile_loop_fail (env : Env) (bk : HandlerSpec → String) (st st' : RState)
    (sr : ObjectHandler) (S : List HandlerStatus) (e : GoErr)
    (hw : addWatchForKind env st sr = (st', none))
    (ht : env.getTarget
        ⟨sr.spec.forObject.group, sr.spec.forObject.version, sr.spec.forObject.kind⟩
        (targetNamespacedName sr) = none)
    (hloop : handlerLoop env bk sr.ns sr.spec.handlers sr.status.handlerStatus [] [] = .fail S e) :
    doReconcile env bk st sr = ⟨st', S, some e⟩ := by
  simp only [doReconcile, hw, ObjectRef.groupVersionKind, ht, hloop]

/-- A sample deterministic key function used by the concrete witnesses. -/
def bk₀ : HandlerSpec → String :=
  fun s => s.pullRequestComment.getD (s.pullRequestApprove.getD "")

/-- A sample instance: two configured comment handlers with keys `h1` and
`h2`; the prior status has a record for `h1` and a stale record `stale`. -/
def sr₀ : ObjectHandler :=
  { ns := "default", name := "oh", generation := 3,
    spec := { forObject := { group := "apps", version := "v1", kind := "Deployment",
                             name := "app", ns := "" },
              interval := 30,
              handlers := [⟨some "h1", none⟩, ⟨some "h2", none⟩] },
    status := { conditions := [],
                handlerStatus := [⟨"h1", "old"⟩, ⟨"stale", ""⟩] } }

/-- A benign environment: every external call succeeds. -/
def env₀ : Env :=
  { getInstance := .ok sr₀,
    getTarget := fun _ _ => none,
    build := fun _ _ _ => none,
    handle := fun _ _ _ => none,
    watchCreate := fun _ => none,
    patch := none }

/-- The initial reconciler state (as set up by `SetupWithManager`). -/
def st₀ : RState := ⟨[], []⟩

/-- C1: for every instance whose prior status respects the at-most-one-
record-per-key invariant, after a reconcile pass in which `doReconcile`
completes the handler loop, the status list has pairwise distinct keys
and its key set is exactly the set of keys derived from the currently
configured handler specifications — stale records are pruned. -/
theorem C1_status_pruning (env : Env) (bk : HandlerSpec → String) (st : RState)
    (sr : ObjectHandler) (S : List HandlerStatus) (E R : List String)
    (hnodup : (statusKeys sr.status.handlerStatus).Nodup)
    (hw : (addWatchForKind env st sr).2 = none)
    (ht : env.getTarget
        ⟨sr.spec.forObject.group, sr.spec.forObject.version, sr.spec.forObject.kind⟩
        (targetNamespacedName sr) = none)
    (hloop : handlerLoop env bk sr.ns sr.spec.handlers sr.status.handlerStatus [] [] = .ok S E R) :
    (statusKeys (doReconcile env bk st sr).statuses).Nodup ∧
    ∀ a, a ∈ statusKeys (doReconcile env bk st sr).statuses ↔ a ∈ sr.spec.handlers.map bk := by
  rcases hws : addWatchForKind env st sr with ⟨st', o⟩
  rw [hws] at hw
  simp only at hw
  subst hw
  rw [doReconcile_loop_ok env bk st st' sr S E R hws ht hloop]
  simp only
  obtain ⟨hnS, hmS, hmE⟩ := handlerLoop_ok_keys env bk sr.ns sr.spec.handlers _ _ _ _ _ _ hloop
  have hfilter : ∀ a, a ∈ statusKeys (S.filter fun x => decide (x.key ∈ E)) ↔
      a ∈ statusKeys S ∧ a ∈ E := by
    intro a
    simp only [statusKeys, List.mem_map, List.mem_filter, decide_eq_true_eq]
    constructor
    · rintro ⟨x, ⟨hxS, hxE⟩, rfl⟩
      exact ⟨⟨x, hxS, rfl⟩, hxE⟩
    · rintro ⟨⟨x, hxS, rfl⟩, hxE⟩
      exact ⟨x, ⟨hxS, hxE⟩, rfl⟩
  constructor
  · have hsub : List.Sublist (statusKeys (S.filter fun x => decide (x.key ∈ E))) (statusKeys S) :=
      List.Sublist.map _ (List.filter_sublist S)
    exact (hnS hnodup).sublist hsub
  · intro a
    rw [hfilter a, hmS a, hmE a]
    simp only [List.not_mem_nil, false_or]
    tauto

/-- C1 witness: the sample instance reconciled in the benign environment;
the stale record is pruned and exactly the keys `h1`, `h2` remain. -/
theorem C1_status_pruning_witness :
    (statusKeys (doReconcile env₀ bk₀ st₀ sr₀).statuses).Nodup ∧
    ∀ a, a ∈ statusKeys (doReconcile env₀ bk₀ st₀ sr₀).statuses ↔
      a ∈ sr₀.spec.handlers.map bk₀ :=
  C1_status_pruning env₀ bk₀ st₀ sr₀
    [⟨"h1", ""⟩, ⟨"stale", ""⟩, ⟨"h2", ""⟩] ["h1", "h2"] []
    (by decide) (by decide) rfl (by decide)

/-- C2: when every handler resolves, per-handler execution failures are
isolated: every handler's status record is updated (failure message or
empty error), the pass error aggregates every individual failure in
order, and the Ready condition is set to False with reason Error. -/
theorem C2_per_handler_isolation (env : Env) (bk : HandlerSpec → String) (st : RState)
    (sr : ObjectHandler)
    (hres : ∀ s ∈ sr.spec.handlers,
      ∃ k cfg, selectReporter s = some (k, cfg) ∧ env.build k sr.ns cfg = none)
    (hkeys : (sr.spec.handlers.map bk).Nodup)
    (hw : (addWatchForKind env st sr).2 = none)
    (ht : env.getTarget
        ⟨sr.spec.forObject.group, sr.spec.forObject.version, sr.spec.forObject.kind⟩
        (targetNamespacedName sr) = none)
    (hfail : sr.spec.handlers.filterMap (handleResult env sr.ns) ≠ [])
    (hget : env.getInstance = .ok sr)
    (hpatch : env.patch = none) :
    (∀ s ∈ sr.spec.handlers, ∃ r ∈ (doReconcile env bk st sr).statuses,
        r.key = bk s ∧ r.error = (handleResult env sr.ns s).getD "") ∧
    (doReconcile env bk st sr).err =
      some (.multi (sr.spec.handlers.filterMap (handleResult env sr.ns))) ∧
    (∃ sr', (Reconcile env bk st).patched = some sr' ∧
      ∃ c ∈ sr'.status.conditions,
        c.type = "Ready" ∧ c.status = .cfalse ∧ c.reason = "Error") := by
  rcases hws : addWatchForKind env st sr with ⟨st', o⟩
  rw [hws] at hw
  simp only at hw
  subst hw
  have hloop := handlerLoop_resolved env bk sr.ns sr.spec.handlers hres
    sr.status.handlerStatus [] []
  have hdr := doReconcile_loop_ok env bk st st' sr _ _ _ hws ht hloop
  obtain ⟨hnS, hmS, hmE⟩ := handlerLoop_ok_keys env bk sr.ns sr.spec.handlers _ _ _ _ _ _ hloop
  have hRempty : (sr.spec.handlers.filterMap (handleResult env sr.ns)).isEmpty = false := by
    cases hcase : sr.spec.handlers.filterMap (handleResult env sr.ns) with
    | nil => exact absurd hcase hfail
    | cons a l => rfl
  have hderr : (doReconcile env bk st sr).err =
      some (.multi (sr.spec.handlers.filterMap (handleResult env sr.ns))) := by
    rw [hdr]
    simp [hRempty]
  refine ⟨?_, hderr, ?_⟩
  · intro s hs
    obtain ⟨r, hrmem, hrk, hre⟩ :=
      runSpecs_record env bk sr.ns sr.spec.handlers sr.status.handlerStatus hkeys s hs
    refine ⟨r, ?_, hrk, hre⟩
    rw [hdr]
    simp only [List.mem_filter, decide_eq_true_eq]
    refine ⟨hrmem, ?_⟩
    rw [hmE]
    right
    rw [hrk]
    exact List.mem_map_of_mem bk hs
  · rw [reconcile_patch_ok env bk st sr hget hpatch]
    refine ⟨_, rfl, readyCondition sr (doReconcile env bk st sr).err,
      mem_setStatusCondition _ _, ?_, ?_, ?_⟩ <;> rw [hderr] <;> rfl

/-- A sample instance with three comment handlers keyed `h1`, `h2`, `h3`
and no prior status. -/
def sr₂ : ObjectHandler :=
  { ns := "default", name := "oh", generation := 3,
    spec := { forObject := { group := "apps", version := "v1", kind := "Deployment",
                             name := "app", ns := "" },
              interval := 30,
              handlers := [⟨some "h1", none⟩, ⟨some "h2", none⟩, ⟨some "h3", none⟩] },
    status := { conditions := [], handlerStatus := [] } }

/-- An environment in which handler `h2` fails execution with message
`boom` while everything else succeeds. -/
def env₂ : Env :=
  { getInstance := .ok sr₂,
    getTarget := fun _ _ => none,
    build := fun _ _ _ => none,
    handle := fun _ _ cfg => if cfg = "h2" then some "boom" else none,
    watchCreate := fun _ => none,
    patch := none }

/-- C2 witness: handler 2 of 3 fails; all three records are persisted
(2 with `boom`, 1 and 3 empty), the pass aggregates the failure, and
Ready is False/Error. -/
theorem C2_per_handler_isolation_witness :
    (∀ s ∈ sr₂.spec.handlers, ∃ r ∈ (doReconcile env₂ bk₀ st₀ sr₂).statuses,
        r.key = bk₀ s ∧ r.error = (handleResult env₂ sr₂.ns s).getD "") ∧
    (doReconcile env₂ bk₀ st₀ sr₂).err =
      some (.multi (sr₂.spec.handlers.filterMap (handleResult env₂ sr₂.ns))) ∧
    (∃ sr', (Reconcile env₂ bk₀ st₀).patched = some sr' ∧
      ∃ c ∈ sr'.status.conditions,
        c.type = "Ready" ∧ c.status = .cfalse ∧ c.reason = "Error") :=
  C2_per_handler_isolation env₂ bk₀ st₀ sr₂
    (by
      intro s hs
      simp only [sr₂, List.mem_cons, List.not_mem_nil, or_false] at hs
      rcases hs with rfl | rfl | rfl
      · exact ⟨HandlerKind.comment, "h1", rfl, rfl⟩
      · exact ⟨HandlerKind.comment, "h2", rfl, rfl⟩
      · exact ⟨HandlerKind.comment, "h3", rfl, rfl⟩)
    (by decide) (by decide) rfl (by decide) rfl rfl

/-- An instance configured with a single handler specification that sets
both mutually-exclusive kind fields. -/
def sr₃ : ObjectHandler :=
  { ns := "default", name := "oh", generation := 3,
    spec := { forObject := { group := "apps", version := "v1", kind := "Deployment",
                             name := "app", ns := "" },
              interval := 30,
              handlers := [⟨some "c", some "a"⟩] },
    status := { conditions := [], handlerStatus := [] } }

/-- C3 counterexample: with a handler specification that sets both
mutually-exclusive kind fields, the reconcile pass does not abort with a
configuration error — `doReconcile` completes successfully in the benign
environment, refuting the claim that more than one set field aborts the
pass. -/
theorem C3_counterexample :
    sr₃.spec.handlers = [⟨some "c", some "a"⟩] ∧
    (doReconcile env₀ bk₀ st₀ sr₃).err = none :=
  ⟨rfl, by decide⟩

/-- C3 (amended): if zero kind fields are set the pass aborts with the
explicit "no reporter specified" error; but when more than one is set
there is no abort — `pullRequestComment` silently takes precedence over
`pullRequestApprove`. -/
theorem C3_handler_kind_selection :
    (∀ s : HandlerSpec, selectReporter s = none ↔
      s.pullRequestComment = none ∧ s.pullRequestApprove = none) ∧
    (∀ (env : Env) (bk : HandlerSpec → String) (ns : String) (s : HandlerSpec)
      (rest : List HandlerSpec) (sts : List HandlerStatus) (ex errs : List String),
      selectReporter s = none →
      handlerLoop env bk ns (s :: rest) sts ex errs =
        .fail sts (.simple "no reporter specified")) ∧
    (∀ (s : HandlerSpec) (c a : String), s.pullRequestComment = some c →
      s.pullRequestApprove = some a →
      selectReporter s = some (HandlerKind.comment, c)) := by
  refine ⟨?_, ?_, ?_⟩
  · intro s
    cases hc : s.pullRequestComment <;> cases ha : s.pullRequestApprove <;>
      simp [selectReporter, hc, ha]
  · intro env bk ns s rest sts ex errs hsel
    simp [handlerLoop, hsel]
  · intro s c a hc _
    simp [selectReporter, hc]

/-- C3 witness: a spec with neither field aborts the loop with the
explicit error; a spec with both fields selects the comment reporter. -/
theorem C3_handler_kind_selection_witness :
    handlerLoop env₀ bk₀ "default" [⟨none, none⟩] [] [] [] =
      .fail [] (.simple "no reporter specified") ∧
    selectReporter ⟨some "c", some "a"⟩ = some (HandlerKind.comment, "c") :=
  ⟨C3_handler_kind_selection.2.1 env₀ bk₀ "default" ⟨none, none⟩ [] [] [] [] rfl,
   C3_handler_kind_selection.2.2 ⟨some "c", some "a"⟩ "c" "a" rfl rfl⟩

/-- An environment whose instance fetch reports not-found. -/
def env₄ : Env :=
  { getInstance := .error ⟨true, "not found"⟩,
    getTarget := fun _ _ => none,
    build := fun _ _ _ => none,
    handle := fun _ _ _ => none,
    watchCreate := fun _ => none,
    patch := none }

/-- C4 counterexample: when the instance fetch reports not-found,
`Reconcile` surfaces the fetch error to the scheduler — the claim that a
deleted instance terminates the pass with no error is false on the code,
which returns every fetch error unfiltered. -/
theorem C4_counterexample :
    env₄.getInstance = .error ⟨true, "not found"⟩ ∧
    (Reconcile env₄ bk₀ st₀).err = some ⟨true, "not found"⟩ :=
  ⟨rfl, by decide⟩

/-- C4 (amended): for every reconcile request whose instance fetch fails —
not-found included — `Reconcile` terminates the pass by returning the
fetch error with an empty result; deletion is not special-cased as an
errorless outcome, and retry is left to the scheduler's error path. -/
theorem C4_fetch_error_surfaced (env : Env) (bk : HandlerSpec → String) (st : RState)
    (e : K8sErr) (h : env.getInstance = .error e) :
    Reconcile env bk st = ⟨st, none, ⟨0⟩, some e⟩ := by
  simp [Reconcile, h]

/-- C4 witness: the not-found environment, fed through the amended
theorem. -/
theorem C4_fetch_error_surfaced_witness :
    Reconcile env₄ bk₀ st₀ = ⟨st₀, none, ⟨0⟩, some ⟨true, "not found"⟩⟩ :=
  C4_fetch_error_surfaced env₄ bk₀ st₀ ⟨true, "not found"⟩ rfl

/-- The watch-registry invariant: the subscription log is duplicate-free
and every logged subscription is marked active. -/
def WatchInv (st : RState) : Prop :=
  st.subscriptions.Nodup ∧ ∀ g ∈ st.subscriptions, g ∈ st.watchedKinds

theorem addWatchForKind_inv (env : Env) (st : RState) (sr : ObjectHandler)
    (h : WatchInv st) : WatchInv (addWatchForKind env st sr).1 := by
  obtain ⟨hnd, hsub⟩ := h
  by_cases hm : (⟨sr.spec.forObject.group, sr.spec.forObject.version,
      sr.spec.forObject.kind⟩ : GVK) ∈ st.watchedKinds
  · have heq : addWatchForKind env st sr = (st, none) := by
      simp [addWatchForKind, ObjectRef.groupVersionKind, hm]
    rw [heq]
    exact ⟨hnd, hsub⟩
  · cases hw : env.watchCreate ⟨sr.spec.forObject.group, sr.spec.forObject.version,
        sr.spec.forObject.kind⟩ with
    | some e =>
      have heq : addWatchForKind env st sr = (st, some (.simple e)) := by
        simp [addWatchForKind, ObjectRef.groupVersionKind, hm, hw]
      rw [heq]
      exact ⟨hnd, hsub⟩
    | none =>
      have heq : addWatchForKind env st sr =
          ({ watchedKinds := ⟨sr.spec.forObject.group, sr.spec.forObject.version,
               sr.spec.forObject.kind⟩ :: st.watchedKinds,
             subscriptions := ⟨sr.spec.forObject.group, sr.spec.forObject.version,
               sr.spec.forObject.kind⟩ :: st.subscriptions }, none) := by
        simp [addWatchForKind, ObjectRef.groupVersionKind, hm, hw]
      rw [heq]
      refine ⟨List.nodup_cons.2 ⟨fun hgs => hm (hsub _ hgs), hnd⟩, ?_⟩
      intro x hx
      rcases List.mem_cons.1 hx with rfl | hx'
      · exact List.mem_cons_self _ _
      · exact List.mem_cons_of_mem _ (hsub x hx')

theorem runWatchCalls_inv (calls : List (Env × ObjectHandler)) :
    ∀ st : RState, WatchInv st → WatchInv (runWatchCalls st calls) := by
  induction calls with
  | nil => intro st h; simpa [runWatchCalls] using h
  | cons c rest ih =>
    intro st h
    simpa [runWatchCalls] using ih _ (addWatchForKind_inv c.1 st c.2 h)

/-- C5: `addWatchForKind` is idempotent per kind — when the instance's
kind is already marked active it returns success immediately with the
registry unchanged and no new subscription — and across any sequence of
calls starting from the initial empty registry, at most one subscription
is ever created per kind (the controller's mutex serializes the real
critical sections, so racing callers execute as such a sequence). -/
theorem C5_watch_idempotent :
    (∀ (env : Env) (st : RState) (sr : ObjectHandler),
      (⟨sr.spec.forObject.group, sr.spec.forObject.version,
        sr.spec.forObject.kind⟩ : GVK) ∈ st.watchedKinds →
      addWatchForKind env st sr = (st, none)) ∧
    (∀ calls : List (Env × ObjectHandler),
      (runWatchCalls ⟨[], []⟩ calls).subscriptions.Nodup) := by
  constructor
  · intro env st sr hm
    simp [addWatchForKind, ObjectRef.groupVersionKind, hm]
  · intro calls
    exact (runWatchCalls_inv calls ⟨[], []⟩ ⟨List.nodup_nil, by simp⟩).1

/-- The GVK of the sample instances. -/
def g₀ : GVK := ⟨"apps", "v1", "Deployment"⟩

/-- C5 witness: a call on an already-active kind is a no-op, and two
racing calls on the same fresh kind create one subscription. -/
theorem C5_watch_idempotent_witness :
    addWatchForKind env₀ ⟨[g₀], []⟩ sr₀ = (⟨[g₀], []⟩, none) ∧
    (runWatchCalls ⟨[], []⟩ [(env₀, sr₀), (env₀, sr₀)]).subscriptions.Nodup :=
  ⟨C5_watch_idempotent.1 env₀ ⟨[g₀], []⟩ sr₀ (by decide),
   C5_watch_idempotent.2 [(env₀, sr₀), (env₀, sr₀)]⟩

/-- C6: when the kind is not yet marked active and creating the watch
subscription fails, `addWatchForKind` returns the error with the registry
unchanged — the kind is not marked active, `doReconcile` surfaces the
error to the triggering pass, and a later pass may retry. -/
theorem C6_watch_failure_retryable (env : Env) (bk : HandlerSpec → String)
    (st : RState) (sr : ObjectHandler) (e : String)
    (hm : (⟨sr.spec.forObject.group, sr.spec.forObject.version,
      sr.spec.forObject.kind⟩ : GVK) ∉ st.watchedKinds)
    (hw : env.watchCreate ⟨sr.spec.forObject.group, sr.spec.forObject.version,
      sr.spec.forObject.kind⟩ = some e) :
    addWatchForKind env st sr = (st, some (.simple e)) ∧
    (doReconcile env bk st sr).err = some (.simple e) ∧
    (doReconcile env bk st sr).st = st := by
  have h1 : addWatchForKind env st sr = (st, some (.simple e)) := by
    simp [addWatchForKind, ObjectRef.groupVersionKind, hm, hw]
  refine ⟨h1, ?_, ?_⟩ <;> simp [doReconcile, h1]

/-- An environment where creating the watch subscription fails. -/
def env₆ : Env :=
  { getInstance := .ok sr₀,
    getTarget := fun _ _ => none,
    build := fun _ _ _ => none,
    handle := fun _ _ _ => none,
    watchCreate := fun _ => some "watch failed",
    patch := none }

/-- C6 witness: a failed subscription on a fresh kind is surfaced and the
registry stays empty. -/
theorem C6_watch_failure_retryable_witness :
    addWatchForKind env₆ st₀ sr₀ = (st₀, some (.simple "watch failed")) ∧
    (doReconcile env₆ bk₀ st₀ sr₀).err = some (.simple "watch failed") ∧
    (doReconcile env₆ bk₀ st₀ sr₀).st = st₀ :=
  C6_watch_failure_retryable env₆ bk₀ st₀ sr₀ "watch failed" (by decide) rfl

/-- C7: whenever the status patch succeeds, `Reconcile` returns
RequeueAfter equal to the instance's configured interval with no error,
regardless of whether the handler pipeline reported failures. -/
theorem C7_requeue_interval (env : Env) (bk : HandlerSpec → String) (st : RState)
    (sr : ObjectHandler) (hget : env.getInstance = .ok sr) (hpatch : env.patch = none) :
    (Reconcile env bk st).res = ⟨sr.spec.interval⟩ ∧ (Reconcile env bk st).err = none := by
  rw [reconcile_patch_ok env bk st sr hget hpatch]
  exact ⟨rfl, rfl⟩

/-- The three-handler instance with interval 10 (the spec's `10s`
scenario). -/
def sr₇ : ObjectHandler :=
  { ns := "default", name := "oh", generation := 3,
    spec := { forObject := { group := "apps", version := "v1", kind := "Deployment",
                             name := "app", ns := "" },
              interval := 10,
              handlers := [⟨some "h1", none⟩, ⟨some "h2", none⟩, ⟨some "h3", none⟩] },
    status := { conditions := [], handlerStatus := [] } }

/-- The failing-handler environment pointed at the interval-10 instance. -/
def env₇ : Env :=
  { getInstance := .ok sr₇,
    getTarget := fun _ _ => none,
    build := fun _ _ _ => none,
    handle := fun _ _ cfg => if cfg = "h2" then some "boom" else none,
    watchCreate := fun _ => none,
    patch := none }

/-- C7 witness: with interval 10 and a failing handler, the pass still
requeues after 10 with no scheduler error. -/
theorem C7_requeue_interval_witness :
    (Reconcile env₇ bk₀ st₀).res = ⟨10⟩ ∧ (Reconcile env₇ bk₀ st₀).err = none :=
  C7_requeue_interval env₇ bk₀ st₀ sr₇ rfl rfl

/-- C8: the target fetch uses the reference's name, with the namespace
taken from the reference when non-empty and defaulting to the instance's
own namespace otherwise; `doReconcile` performs the fetch at exactly that
namespaced name. -/
theorem C8_target_namespace_defaulting :
    (∀ sr : ObjectHandler, (targetNamespacedName sr).name = sr.spec.forObject.name) ∧
    (∀ sr : ObjectHandler, sr.spec.forObject.ns ≠ "" →
      (targetNamespacedName sr).ns = sr.spec.forObject.ns) ∧
    (∀ sr : ObjectHandler, sr.spec.forObject.ns = "" →
      (targetNamespacedName sr).ns = sr.ns) ∧
    (∀ (env : Env) (bk : HandlerSpec → String) (st : RState) (sr : ObjectHandler) (e : K8sErr),
      (addWatchForKind env st sr).2 = none →
      env.getTarget ⟨sr.spec.forObject.group, sr.spec.forObject.version,
        sr.spec.forObject.kind⟩ (targetNamespacedName sr) = some e →
      (doReconcile env bk st sr).err = some (.simple e.msg)) := by
  refine ⟨?_, ?_, ?_, ?_⟩
  · intro sr
    unfold targetNamespacedName
    split <;> rfl
  · intro sr h
    simp [targetNamespacedName, h]
  · intro sr h
    simp [targetNamespacedName, h]
  · intro env bk st sr e hw ht
    rcases hws : addWatchForKind env st sr with ⟨st', o⟩
    rw [hws] at hw
    simp only at hw
    subst hw
    simp [doReconcile, hws, ObjectRef.groupVersionKind, ht]

/-- The sample instance with an explicit target-namespace override. -/
def sr₈ : ObjectHandler :=
  { ns := "default", name := "oh", generation := 3,
    spec := { forObject := { group := "apps", version := "v1", kind := "Deployment",
                             name := "app", ns := "other" },
              interval := 30,
              handlers := [⟨some "h1", none⟩, ⟨some "h2", none⟩] },
    status := { conditions := [], handlerStatus := [] } }

/-- An environment whose target-object fetch fails. -/
def env₈ : Env :=
  { getInstance := .ok sr₀,
    getTarget := fun _ _ => some ⟨false, "target get failed"⟩,
    build := fun _ _ _ => none,
    handle := fun _ _ _ => none,
    watchCreate := fun _ => none,
    patch := none }

/-- C8 witness: the override namespace wins when set, the instance
namespace is used when the reference's is empty, and the failed fetch at
that name is surfaced by `doReconcile`. -/
theorem C8_target_namespace_defaulting_witness :
    (targetNamespacedName sr₈).name = sr₈.spec.forObject.name ∧
    (targetNamespacedName sr₈).ns = "other" ∧
    (targetNamespacedName sr₀).ns = "default" ∧
    (doReconcile env₈ bk₀ st₀ sr₀).err = some (.simple "target get failed") :=
  ⟨C8_target_namespace_defaulting.1 sr₈,
   C8_target_namespace_defaulting.2.1 sr₈ (by decide),
   C8_target_namespace_defaulting.2.2.1 sr₀ rfl,
   C8_target_namespace_defaulting.2.2.2 env₈ bk₀ st₀ sr₀ ⟨false, "target get failed"⟩
     (by decide) rfl⟩

/-- C9 counterexample: a failed reference-index query inside the watch
mapping function is silently dropped — it produces exactly the same empty
request list as a successful query with no matches, updating no status
record and aborting nothing. -/
theorem C9_counterexample :
    watchMapFunc (.error ⟨false, "list failed"⟩) = watchMapFunc (.ok []) := rfl

/-- C9 (amended): every failure of the reconcile pass itself is reported —
when the pass fails and the patch succeeds, the patched instance carries a
Ready=False/Error condition holding the failure's message — except in the
watch mapping function, where a failed reference-index query is silently
dropped, yielding no requests. -/
theorem C9_error_reporting :
    (∀ e : K8sErr, watchMapFunc (.error e) = []) ∧
    (∀ (env : Env) (bk : HandlerSpec → String) (st : RState) (sr : ObjectHandler) (e : GoErr),
      env.getInstance = .ok sr → env.patch = none →
      (doReconcile env bk st sr).err = some e →
      ∃ sr', (Reconcile env bk st).patched = some sr' ∧
        readyCondition sr (some e) ∈ sr'.status.conditions ∧
        (readyCondition sr (some e)).status = .cfalse ∧
        (readyCondition sr (some e)).reason = "Error" ∧
        (readyCondition sr (some e)).message = e.message) := by
  constructor
  · intro e
    rfl
  · intro env bk st sr e hget hpatch hde
    rw [reconcile_patch_ok env bk st sr hget hpatch]
    refine ⟨_, rfl, ?_, rfl, rfl, rfl⟩
    rw [hde]
    exact mem_setStatusCondition _ _

/-- C9 witness: the dropped list error, and a failed target fetch being
reported through the Ready condition. -/
theorem C9_error_reporting_witness :
    watchMapFunc (.error ⟨false, "list failed"⟩) = [] ∧
    ∃ sr', (Reconcile env₈ bk₀ st₀).patched = some sr' ∧
      readyCondition sr₀ (some (.simple "target get failed")) ∈ sr'.status.conditions ∧
      (readyCondition sr₀ (some (.simple "target get failed"))).status = .cfalse ∧
      (readyCondition sr₀ (some (.simple "target get failed"))).reason = "Error" ∧
      (readyCondition sr₀ (some (.simple "target get failed"))).message =
        (GoErr.simple "target get failed").message :=
  ⟨C9_error_reporting.1 ⟨false, "list failed"⟩,
   C9_error_reporting.2 env₈ bk₀ st₀ sr₀ (.simple "target get failed") rfl rfl (by decide)⟩

/-- C10: when `doReconcile` fails but the status patch succeeds,
`Reconcile` returns a nil error together with RequeueAfter equal to the
configured interval — failed passes are rescheduled at the same interval
as successful ones, not handed to the scheduler's error-retry path. -/
theorem C10_failed_pass_rescheduled (env : Env) (bk : HandlerSpec → String) (st : RState)
    (sr : ObjectHandler) (e : GoErr)
    (hget : env.getInstance = .ok sr) (hpatch : env.patch = none)
    (hfail : (doReconcile env bk st sr).err = some e) :
    (Reconcile env bk st).err = none ∧ (Reconcile env bk st).res = ⟨sr.spec.interval⟩ := by
  rw [reconcile_patch_ok env bk st sr hget hpatch]
  exact ⟨rfl, rfl⟩

/-- C10 witness: the pass whose target fetch fails still requeues after
the interval with no scheduler error. -/
theorem C10_failed_pass_rescheduled_witness :
    (Reconcile env₈ bk₀ st₀).err = none ∧ (Reconcile env₈ bk₀ st₀).res = ⟨30⟩ :=
  C10_failed_pass_rescheduled env₈ bk₀ st₀ sr₀ (.simple "target get failed") rfl rfl (by decide)

end TemplateController
